import Mathlib

/-!
Verification of the `usim` Activity core (`src/usim/_primitives/activity.py`).

We shallowly embed the `Activity` lifecycle state machine: the wrapped payload
coroutine, the runner coroutine produced by `payload_wrapper`, the write-once
result cell, the list of pending `CancelActivity` interrupts, and the `Done`
condition folded into the activity state.  The `Done`/`NotDone` condition pair
is additionally modelled as explicit objects (with addresses standing in for
Python object identity) to state identity-based properties.

Parts of the repository outside `activity.py` (the event loop's `Interrupt`
class and the `Condition` base class) are not in the sources; where their
behaviour matters it is modelled from the specification and marked as such.
-/

set_option autoImplicit false

namespace USim

/-- `ActivityState` from the source, with `FINISHED` as a predicate rather
than a flag union. -/
inductive ActivityState where
  | CREATED
  | RUNNING
  | CANCELLED
  | FAILED
  | SUCCESS
deriving DecidableEq, Repr

/-- `FINISHED = CANCELLED | FAILED | SUCCESS` from the source enum. -/
def ActivityState.FINISHED : ActivityState → Bool
  | .CANCELLED => true
  | .FAILED => true
  | .SUCCESS => true
  | _ => false

/-- Exceptions relevant to `activity.py`: `ActivityCancelled` (an `Exception`
carrying a `subject`), `CancelActivity` (an `Interrupt` subclass carrying a
`subject`), `ActivityExit`, and arbitrary other errors raised by payloads.
Activities are identified by a `Nat` id standing in for object identity. -/
inductive Exc where
  | activityCancelled (subject : Nat) (token : List Nat)
  | cancelActivity (subject : Nat) (token : List Nat)
  | activityExit (msg : String)
  | generic (name : String)
deriving DecidableEq, Repr

/-- `isinstance(error, ActivityCancelled)`: true only for `ActivityCancelled`;
a `CancelActivity` is an `Interrupt`, not an `ActivityCancelled`. -/
def Exc.isActivityCancelled : Exc → Bool
  | .activityCancelled _ _ => true
  | _ => false

/-- `CancelActivity.__transcript__`: build `ActivityCancelled(self.subject, *self.token)`. -/
def transcript (subject : Nat) (token : List Nat) : Exc :=
  .activityCancelled subject token

/-- A `CancelActivity` interrupt object: `subject`, `token` and the
`scheduled` / `revoked` flags of the `Interrupt` base class. -/
structure CancelInterrupt where
  subject : Nat
  token : List Nat
  scheduled : Bool
  revoked : Bool
deriving DecidableEq, Repr

/-- Modelled from the spec: `Interrupt.revoke` (defined in the event-loop
module, which is not among the sources) marks the interrupt as revoked;
the scheduler skips delivery of a revoked interrupt. -/
def CancelInterrupt.revoke (c : CancelInterrupt) : CancelInterrupt :=
  { c with revoked := true }

/-- How the wrapped payload coroutine ends: returning a value or raising. -/
inductive POutcome where
  | ret (v : Nat)
  | exc (e : Exc)
deriving DecidableEq, Repr

/-- Static behaviour of a payload coroutine: how many suspension points its
body has before it finishes, and how it finishes. -/
structure PayloadSpec where
  suspensions : Nat
  outcome : POutcome
deriving DecidableEq, Repr

/-- Execution state of the payload coroutine: whether its body has begun
executing, how many of its suspension points have been resumed, and whether
it has been `close()`d. -/
structure PayloadState where
  started : Bool
  stepsRun : Nat
  closed : Bool
deriving DecidableEq, Repr

/-- Execution state of the runner coroutine (`payload_wrapper()`):
`created` corresponds to `cr_frame.f_lasti == -1`; `suspended` means it is
blocked inside `await self.payload`; `completed` means the wrapper returned;
`errored e` means `e` escaped the wrapper; `closedR` means it was closed. -/
inductive RunnerState where
  | created
  | suspended
  | completed
  | errored (e : Exc)
  | closedR
deriving DecidableEq, Repr

/-- Observable events on an activity, used to state ordering and
exactly-once properties: a result assignment, an interrupt revocation, and a
`done` trigger. -/
inductive Ev where
  | assignResult (value : Option Nat) (error : Option Exc)
  | revokeEv (subject : Nat) (token : List Nat)
  | triggerEv
deriving DecidableEq, Repr

/-- The `Activity` state: payload behaviour and execution state, the
write-once `_result` cell, the `_cancellations` list (the object store for
interrupts), the scheduler's queue of signals for the runner (indices into
`cancellations`, FIFO), the runner state, the folded `Done` condition
(`doneValue` with its trigger count), an assertion-failure flag, and the
event trace. -/
structure Activity where
  id : Nat
  payload : PayloadSpec
  pstate : PayloadState
  result : Option (Option Nat × Option Exc)
  cancellations : List CancelInterrupt
  sigQueue : List Nat
  runner : RunnerState
  doneValue : Bool
  doneTriggerCount : Nat
  assertionFailed : Bool
  events : List Ev
deriving DecidableEq, Repr

/-- `Activity.__init__`: fresh cancellation list, no result, un-started
runner, un-triggered `Done`. -/
def mkActivity (id : Nat) (p : PayloadSpec) : Activity :=
  { id := id
    payload := p
    pstate := { started := false, stepsRun := 0, closed := false }
    result := none
    cancellations := []
    sigQueue := []
    runner := .created
    doneValue := false
    doneTriggerCount := 0
    assertionFailed := false
    events := [] }

/-- `Done.__set_done__` acting on the activity's folded condition:
`assert not self._value`, then set the value and `__trigger__` (modelled
from the spec as waking all waiters, recorded as a trigger event).  A failed
assertion sets the sticky `assertionFailed` flag and performs nothing else. -/
def setDone (a : Activity) : Activity :=
  if a.doneValue then
    { a with assertionFailed := true }
  else
    { a with doneValue := true
             doneTriggerCount := a.doneTriggerCount + 1
             events := a.events ++ [.triggerEv] }

/-- The tail of `payload_wrapper` after the payload stopped and an outcome
was chosen: `self._result = ...`, then `for cancellation in
self._cancellations: cancellation.revoke()`, then `self._done.__set_done__()`,
in that order. -/
def finishWith (a : Activity) (v : Option Nat) (e : Option Exc) : Activity :=
  let a1 : Activity :=
    { a with result := some (v, e),
             events := a.events ++ [Ev.assignResult v e] }
  let a2 : Activity :=
    { a1 with
        cancellations := a1.cancellations.map CancelInterrupt.revoke,
        events := a1.events ++
          a1.cancellations.map (fun c => Ev.revokeEv c.subject c.token) }
  setDone a2

/-- The wrapper's reaction when the payload's body finishes on its own:
a normal return is recorded as a success; a `CancelActivity` is caught,
its subject asserted to be this activity, and recorded via `__transcript__`;
any other exception is not caught and escapes the wrapper. -/
def handleStop (a : Activity) : Activity :=
  match a.payload.outcome with
  | .ret v => { finishWith a (some v) none with runner := .completed }
  | .exc (.cancelActivity s t) =>
      if s = a.id then
        { finishWith a none (some (transcript s t)) with runner := .completed }
      else
        { a with assertionFailed := true
                 runner := .errored (.generic "AssertionError") }
  | .exc e => { a with runner := .errored e }

/-- A plain (signal-free) resumption of the runner by the scheduler.
Starting the runner executes the wrapper from the top: the pre-run
cancellation check (`if self._result is not None: self.payload.close();
return`), otherwise the payload starts executing up to its first suspension
point or to completion.  Resuming a suspended runner advances the payload by
one suspension point, completing it after the last one.  A finished or
closed coroutine cannot be resumed. -/
def resumePlain (a : Activity) : Activity :=
  match a.runner with
  | .created =>
      if a.result.isSome then
        { a with pstate := { a.pstate with closed := true }
                 runner := .completed }
      else
        let a1 := { a with pstate := { a.pstate with started := true } }
        if a1.payload.suspensions = 0 then handleStop a1
        else { a1 with runner := .suspended }
  | .suspended =>
      let a1 := { a with pstate := { a.pstate with stepsRun := a.pstate.stepsRun + 1 } }
      if a1.pstate.stepsRun < a1.payload.suspensions then a1
      else handleStop a1
  | _ => a

/-- Delivery of a `CancelActivity` signal at the runner's next resumption
(the delivery step itself is modelled from the spec; the `except
CancelActivity` clause it reaches is from `payload_wrapper`).  The interrupt
surfaces inside `await self.payload`; the payload propagates it and the
wrapper catches it: `assert err.subject is self` and only then record the
cancellation, revoke pending interrupts and trigger `done`.  A failed
assertion escapes the wrapper with nothing recorded. -/
def deliver (a : Activity) (c : CancelInterrupt) : Activity :=
  match a.runner with
  | .suspended =>
      if c.subject = a.id then
        { finishWith a none (some (transcript c.subject c.token)) with
            runner := .completed }
      else
        { a with assertionFailed := true
                 runner := .errored (.generic "AssertionError") }
  | .created => { a with runner := .errored (.cancelActivity c.subject c.token) }
  | _ => a

/-- Modelled from the spec: the scheduler pops the next scheduled signal for
the runner and delivers it, skipping it if it has been revoked. -/
def dispatchSignal (a : Activity) : Activity :=
  match a.sigQueue with
  | [] => a
  | i :: rest =>
      match a.cancellations[i]? with
      | none => { a with sigQueue := rest }
      | some c =>
          if c.revoked then { a with sigQueue := rest }
          else deliver { a with sigQueue := rest } c

/-- The read `self.__runner__.cr_frame.f_lasti == -1` performed by `status`:
a terminated runner coroutine (completed, raised, or closed) has
`cr_frame is None`, so the attribute access raises `AttributeError`
(modelled as `none`); a live frame answers whether `f_lasti == -1`,
that is, whether the wrapper has not begun executing. -/
def runnerFrameLastiIsMinusOne (a : Activity) : Option Bool :=
  match a.runner with
  | .created => some true
  | .suspended => some false
  | _ => none

/-- `Activity.status`: derived from `_result`; when no result exists it
reads `self.__runner__.cr_frame.f_lasti`, which raises `AttributeError`
(`none`) when the runner coroutine has terminated and its frame is gone. -/
def Activity.status? (a : Activity) : Option ActivityState :=
  match a.result with
  | some (_, some e) =>
      some (if e.isActivityCancelled then .CANCELLED else .FAILED)
  | some (_, none) => some .SUCCESS
  | none =>
      match runnerFrameLastiIsMinusOne a with
      | none => none
      | some true => some .CREATED
      | some false => some .RUNNING

/-- `Activity.cancel(*token)`: no-op when a result exists; otherwise it
reads `self.status` — on a CREATED activity it records a self-referential
`ActivityCancelled` and triggers `done` immediately; otherwise it
constructs a `CancelActivity`, appends it to `_cancellations`, marks it
scheduled and schedules it against the runner.  When the status read
raises `AttributeError` (no result but a terminated runner), `cancel`
raises before mutating anything, leaving the state unchanged. -/
def cancel (a : Activity) (token : List Nat) : Activity :=
  if a.result.isSome then a
  else
    match Activity.status? a with
    | none => a
    | some st =>
        if st = ActivityState.CREATED then
          setDone { a with
                      result := some (none, some (Exc.activityCancelled a.id token))
                      events := a.events ++
                        [.assignResult none (some (.activityCancelled a.id token))] }
        else
          { a with
              cancellations :=
                a.cancellations ++ [⟨a.id, token, true, false⟩]
              sigQueue := a.sigQueue ++ [a.cancellations.length] }

/-- The default `reason` of `Activity.__close__`. -/
def defaultCloseReason : Exc := .activityExit "activity closed"

/-- `Activity.__close__(reason)`: when no result exists, close the runner
coroutine (closing a suspended runner unwinds through the payload as well;
closing a finished runner is a no-op), then record `(None, reason)` and
trigger `done`.  When a result exists, do nothing. -/
def close (a : Activity) (reason : Exc) : Activity :=
  if a.result.isSome then a
  else
    let a1 :=
      match a.runner with
      | .created => { a with runner := .closedR }
      | .suspended => { a with runner := .closedR
                               pstate := { a.pstate with closed := true } }
      | _ => a
    setDone { a1 with
                result := some (none, some reason)
                events := a1.events ++ [.assignResult none (some reason)] }

/-- The operations an activity's state is subject to: `cancel`, `__close__`,
plain resumptions of the runner, and deliveries of scheduled signals. -/
inductive Op where
  | cancelOp (token : List Nat)
  | closeOp (reason : Exc)
  | resumeOp
  | dispatchOp
deriving DecidableEq, Repr

/-- Apply one operation. -/
def applyOp (a : Activity) : Op → Activity
  | .cancelOp t => cancel a t
  | .closeOp r => close a r
  | .resumeOp => resumePlain a
  | .dispatchOp => dispatchSignal a

/-- Apply a sequence of operations, first element first. -/
def applyOps (a : Activity) : List Op → Activity
  | [] => a
  | op :: ops => applyOps (applyOp a op) ops

/-- `Activity.__await__` performed once on an activity: modelled from the
spec for the `Condition` part (awaiting a triggered condition resumes
immediately and changes nothing; an un-triggered one suspends the caller,
returned as `none` here), then `result, error = self._result`; raise the
error if there is one, otherwise return the result. -/
def awaitStep (a : Activity) : Option (Activity × Except Exc (Option Nat)) :=
  if a.doneValue then
    match a.result with
    | some (_, some e) => some (a, .error e)
    | some (v, none) => some (a, .ok v)
    | none => none
  else none

/-- A `NotDone` object: its own address and the `_done` back-reference,
both standing in for Python object identity. -/
structure NotDoneObj where
  addr : Nat
  doneAddr : Nat
deriving DecidableEq, Repr

/-- A `Done` object: address, the `_activity` reference, the `_value` flag,
the `_inverse` field (absent only if it were never assigned), a trigger
count for `Condition.__trigger__` (modelled from the spec as waking all
waiters), and the assertion flag of `__set_done__`. -/
structure DoneObj where
  addr : Nat
  activityId : Nat
  value : Bool
  inverse : Option NotDoneObj
  triggerCount : Nat
  assertFailed : Bool
deriving DecidableEq, Repr

/-- `Done.__init__`: value starts false and `self._inverse = NotDone(self)`
is assigned eagerly, in the constructor itself. -/
def mkDoneObj (addr nAddr activityId : Nat) : DoneObj :=
  { addr := addr
    activityId := activityId
    value := false
    inverse := some { addr := nAddr, doneAddr := addr }
    triggerCount := 0
    assertFailed := false }

/-- `Done.__bool__`. -/
def DoneObj.boolVal (d : DoneObj) : Bool := d.value

/-- `Done.__invert__`: return the stored `_inverse`. -/
def DoneObj.invertD (d : DoneObj) : Option NotDoneObj := d.inverse

/-- `NotDone.__bool__`: `not self._done`, evaluated through the reference;
`d` must be the `Done` object at `nd.doneAddr`. -/
def NotDoneObj.boolVal (nd : NotDoneObj) (d : DoneObj) : Bool := !d.value

/-- `NotDone.__invert__`: return the `_done` reference (its address). -/
def NotDoneObj.invertN (nd : NotDoneObj) : Nat := nd.doneAddr

/-- `Done.__set_done__` on the object model: `assert not self._value`,
then set the value and trigger. -/
def setDoneObj (d : DoneObj) : DoneObj :=
  if d.value then { d with assertFailed := true }
  else { d with value := true, triggerCount := d.triggerCount + 1 }

/-! ### Invariants of the activity state machine -/

/-- Whether an event is a result assignment. -/
def isAssignEv : Ev → Bool
  | .assignResult _ _ => true
  | _ => false

/-- Number of result assignments in the event trace. -/
def countAssign (a : Activity) : Nat :=
  a.events.countP isAssignEv

/-- The payload's execution progress: whether its body began executing and
how many suspension points it has been resumed past.  (Closing a coroutine
discards it without executing its body, so `closed` is not part of the
execution progress.) -/
def payloadExec (a : Activity) : Bool × Nat :=
  (a.pstate.started, a.pstate.stepsRun)

/-- The inductive invariant of an activity: the trace shows exactly as many
result assignments as the result cell holds; `done` is triggered exactly
when a result exists; a runner suspended inside the payload has no result
yet; an un-started runner has no signals scheduled against it; and, as long
as no result exists, the runner is un-started exactly when the payload body
has not begun executing. -/
def Inv (a : Activity) : Prop :=
  countAssign a = (if a.result.isSome then 1 else 0)
  ∧ a.doneValue = a.result.isSome
  ∧ a.doneTriggerCount = (if a.doneValue then 1 else 0)
  ∧ (a.runner = .suspended → a.result = none)
  ∧ (a.runner = .created → a.sigQueue = [])
  ∧ (a.result = none → (a.runner = .created ↔ a.pstate.started = false))

theorem isAssignEv_assign (v : Option Nat) (e : Option Exc) :
    isAssignEv (.assignResult v e) = true := rfl

theorem isAssignEv_revoke (s : Nat) (t : List Nat) :
    isAssignEv (.revokeEv s t) = false := rfl

theorem isAssignEv_trigger : isAssignEv .triggerEv = false := rfl

theorem countP_revokes (l : List CancelInterrupt) :
    (l.map fun c => Ev.revokeEv c.subject c.token).countP isAssignEv = 0 := by
  induction l with
  | nil => rfl
  | cons c l ih => simp [List.countP_cons, ih, isAssignEv]

theorem countP_comp_revokes (l : List CancelInterrupt) :
    List.countP (isAssignEv ∘ fun c => Ev.revokeEv c.subject c.token) l = 0 := by
  induction l with
  | nil => rfl
  | cons c l ih => simp [List.countP_cons, ih, isAssignEv, Function.comp]

theorem inv_mk (i : Nat) (p : PayloadSpec) : Inv (mkActivity i p) := by
  simp [Inv, mkActivity, countAssign]

theorem status?_of_none (a : Activity) (hres : a.result = none) :
    Activity.status? a =
      match a.runner with
      | RunnerState.created => some ActivityState.CREATED
      | RunnerState.suspended => some ActivityState.RUNNING
      | _ => none := by
  unfold Activity.status? runnerFrameLastiIsMinusOne
  rw [hres]
  cases a.runner <;> rfl

theorem inv_cancel (a : Activity) (t : List Nat) (h : Inv a) : Inv (cancel a t) := by
  obtain ⟨h1, h2, h3, h4, h5, h6⟩ := h
  unfold cancel
  by_cases hr : a.result.isSome
  · simp only [if_pos hr]
    exact ⟨h1, h2, h3, h4, h5, h6⟩
  · have hres : a.result = none := Option.not_isSome_iff_eq_none.mp hr
    have hdone : a.doneValue = false := by rw [h2, hres]; rfl
    have h1z : countAssign a = 0 := by rw [h1, hres]; rfl
    have h3z : a.doneTriggerCount = 0 := by rw [h3, hdone]; rfl
    have hsn := status?_of_none a hres
    simp only [if_neg hr]
    split
    · exact ⟨h1, h2, h3, h4, h5, h6⟩
    · rename_i st heq
      rw [heq] at hsn
      by_cases hst : st = ActivityState.CREATED
      · have hcr : a.runner = RunnerState.created := by
          cases hrun : a.runner with
          | created => rfl
          | suspended => rw [hrun, hst] at hsn; simp at hsn
          | completed => rw [hrun] at hsn; simp at hsn
          | errored e => rw [hrun] at hsn; simp at hsn
          | closedR => rw [hrun] at hsn; simp at hsn
        simp only [if_pos hst, setDone, hdone]
        refine ⟨?_, ?_, ?_, ?_, ?_, ?_⟩
        · simp [countAssign, List.countP_append, isAssignEv]
          simpa [countAssign] using h1z
        · simp
        · simp [h3z]
        · intro hsus
          simp at hsus
          rw [hcr] at hsus
          exact absurd hsus (by simp)
        · intro _
          simpa using h5 hcr
        · intro hcontra
          simp at hcontra
      · simp only [if_neg hst]
        have hncr : a.runner ≠ RunnerState.created := by
          intro hx
          rw [hx] at hsn
          simp at hsn
          exact hst hsn
        refine ⟨?_, ?_, ?_, ?_, ?_, ?_⟩
        · simpa [countAssign] using h1
        · simpa using h2
        · simpa using h3
        · intro hsus
          simp at hsus
          simpa [hres] using h4 hsus
        · intro hc
          simp at hc
          exact absurd hc hncr
        · intro _
          simpa [hres] using h6 hres

theorem inv_close (a : Activity) (r : Exc) (h : Inv a) : Inv (close a r) := by
  obtain ⟨h1, h2, h3, h4, h5, h6⟩ := h
  unfold close
  by_cases hr : a.result.isSome
  · simp only [if_pos hr]
    exact ⟨h1, h2, h3, h4, h5, h6⟩
  · have hres : a.result = none := Option.not_isSome_iff_eq_none.mp hr
    have hdone : a.doneValue = false := by rw [h2, hres]; rfl
    have h1z : countAssign a = 0 := by rw [h1, hres]; rfl
    have h3z : a.doneTriggerCount = 0 := by rw [h3, hdone]; rfl
    simp only [if_neg hr]
    cases hrun : a.runner with
    | created =>
        simp only [setDone, hdone]
        refine ⟨?_, ?_, ?_, ?_, ?_, ?_⟩
        · simp [countAssign, List.countP_append, isAssignEv]
          simpa [countAssign] using h1z
        · simp
        · simp [h3z]
        · intro hsus; simp at hsus
        · intro hc; simp at hc
        · intro hcontra; simp at hcontra
    | suspended =>
        simp only [setDone, hdone]
        refine ⟨?_, ?_, ?_, ?_, ?_, ?_⟩
        · simp [countAssign, List.countP_append, isAssignEv]
          simpa [countAssign] using h1z
        · simp
        · simp [h3z]
        · intro hsus; simp at hsus
        · intro hc; simp at hc
        · intro hcontra; simp at hcontra
    | completed =>
        simp only [hrun, setDone, hdone]
        refine ⟨?_, ?_, ?_, ?_, ?_, ?_⟩
        · simp [countAssign, List.countP_append, isAssignEv]
          simpa [countAssign] using h1z
        · simp
        · simp [h3z]
        · intro hsus; simp at hsus
        · intro hc; simp at hc
        · intro hcontra; simp at hcontra
    | errored e =>
        simp only [hrun, setDone, hdone]
        refine ⟨?_, ?_, ?_, ?_, ?_, ?_⟩
        · simp [countAssign, List.countP_append, isAssignEv]
          simpa [countAssign] using h1z
        · simp
        · simp [h3z]
        · intro hsus; simp at hsus
        · intro hc; simp at hc
        · intro hcontra; simp at hcontra
    | closedR =>
        simp only [hrun, setDone, hdone]
        refine ⟨?_, ?_, ?_, ?_, ?_, ?_⟩
        · simp [countAssign, List.countP_append, isAssignEv]
          simpa [countAssign] using h1z
        · simp
        · simp [h3z]
        · intro hsus; simp at hsus
        · intro hc; simp at hc
        · intro hcontra; simp at hcontra

theorem inv_finishWith (a : Activity) (v : Option Nat) (e : Option Exc)
    (hres : a.result = none) (hdone : a.doneValue = false)
    (h1z : countAssign a = 0) (h3z : a.doneTriggerCount = 0) :
    Inv { finishWith a v e with runner := .completed } := by
  simp only [finishWith, setDone, hdone]
  refine ⟨?_, ?_, ?_, ?_, ?_, ?_⟩
  · have h1x : List.countP isAssignEv a.events = 0 := h1z
    simp [countAssign, List.countP_append, List.countP_map, countP_comp_revokes,
          isAssignEv, h1x]
  · simp
  · simp [h3z]
  · intro hsus; simp at hsus
  · intro hc; simp at hc
  · intro hcontra; simp at hcontra

theorem inv_handleStop (a : Activity)
    (hres : a.result = none) (hdone : a.doneValue = false)
    (h1z : countAssign a = 0) (h3z : a.doneTriggerCount = 0)
    (hstarted : a.pstate.started = true) :
    Inv (handleStop a) := by
  unfold handleStop
  cases ho : a.payload.outcome with
  | ret v => exact inv_finishWith a (some v) none hres hdone h1z h3z
  | exc e =>
      cases e with
      | cancelActivity s t =>
          by_cases hid : s = a.id
          · simp only [if_pos hid]
            exact inv_finishWith a none (some (transcript s t)) hres hdone h1z h3z
          · simp only [if_neg hid]
            refine ⟨?_, ?_, ?_, ?_, ?_, ?_⟩
            · simpa [countAssign, hres] using h1z
            · simpa [hres] using hdone
            · simpa [hdone] using h3z
            · intro hsus; simp at hsus
            · intro hc; simp at hc
            · intro _; simp [hstarted]
      | activityCancelled s t =>
          refine ⟨?_, ?_, ?_, ?_, ?_, ?_⟩
          · simpa [countAssign, hres] using h1z
          · simpa [hres] using hdone
          · simpa [hdone] using h3z
          · intro hsus; simp at hsus
          · intro hc; simp at hc
          · intro _; simp [hstarted]
      | activityExit m =>
          refine ⟨?_, ?_, ?_, ?_, ?_, ?_⟩
          · simpa [countAssign, hres] using h1z
          · simpa [hres] using hdone
          · simpa [hdone] using h3z
          · intro hsus; simp at hsus
          · intro hc; simp at hc
          · intro _; simp [hstarted]
      | generic n =>
          refine ⟨?_, ?_, ?_, ?_, ?_, ?_⟩
          · simpa [countAssign, hres] using h1z
          · simpa [hres] using hdone
          · simpa [hdone] using h3z
          · intro hsus; simp at hsus
          · intro hc; simp at hc
          · intro _; simp [hstarted]

theorem inv_resume (a : Activity) (h : Inv a) : Inv (resumePlain a) := by
  obtain ⟨h1, h2, h3, h4, h5, h6⟩ := h
  unfold resumePlain
  cases hrun : a.runner with
  | created =>
      by_cases hr : a.result.isSome
      · simp only [if_pos hr]
        refine ⟨?_, ?_, ?_, ?_, ?_, ?_⟩
        · simpa [countAssign] using h1
        · simpa using h2
        · simpa using h3
        · intro hsus; simp at hsus
        · intro hc; simp at hc
        · intro hcontra
          simp at hcontra
          rw [hcontra] at hr
          simp at hr
      · have hres : a.result = none := Option.not_isSome_iff_eq_none.mp hr
        have hdone : a.doneValue = false := by rw [h2, hres]; rfl
        have h1z : countAssign a = 0 := by rw [h1, hres]; rfl
        have h3z : a.doneTriggerCount = 0 := by rw [h3, hdone]; rfl
        simp only [if_neg hr]
        by_cases hz : a.payload.suspensions = 0
        · simp only [hz, if_pos]
          exact inv_handleStop _ (by simpa [countAssign] using hres)
            (by simpa using hdone) (by simpa [countAssign] using h1z)
            (by simpa using h3z) (by simp)
        · simp only [if_neg hz]
          refine ⟨?_, ?_, ?_, ?_, ?_, ?_⟩
          · simpa [countAssign, hres] using h1z
          · simpa [hres] using hdone
          · simpa [hdone] using h3z
          · intro _; simpa using hres
          · intro hc; simp at hc
          · intro _; simp
  | suspended =>
      have hres : a.result = none := h4 hrun
      have hstarted : a.pstate.started = true := by
        have h6x := h6 hres
        rw [hrun] at h6x
        simpa using h6x
      have hdone : a.doneValue = false := by rw [h2, hres]; rfl
      have h1z : countAssign a = 0 := by rw [h1, hres]; rfl
      have h3z : a.doneTriggerCount = 0 := by rw [h3, hdone]; rfl
      by_cases hlt :
          a.pstate.stepsRun + 1 < a.payload.suspensions
      · simp only [if_pos hlt]
        refine ⟨?_, ?_, ?_, ?_, ?_, ?_⟩
        · simpa [countAssign, hres] using h1z
        · simpa [hres] using hdone
        · simpa [hdone] using h3z
        · intro _; simpa using hres
        · intro hc; simp at hc
        · intro _; simp [hstarted]
      · simp only [if_neg hlt]
        exact inv_handleStop _ (by simpa using hres) (by simpa using hdone)
          (by simpa [countAssign] using h1z) (by simpa using h3z)
          (by simpa using hstarted)
  | completed => exact ⟨h1, h2, h3, h4, h5, h6⟩
  | errored e => exact ⟨h1, h2, h3, h4, h5, h6⟩
  | closedR => exact ⟨h1, h2, h3, h4, h5, h6⟩

theorem inv_dispatch (a : Activity) (h : Inv a) : Inv (dispatchSignal a) := by
  obtain ⟨h1, h2, h3, h4, h5, h6⟩ := h
  unfold dispatchSignal
  split
  · exact ⟨h1, h2, h3, h4, h5, h6⟩
  · rename_i i rest hq
    have hncr : a.runner ≠ RunnerState.created := by
      intro hx
      rw [h5 hx] at hq
      exact absurd hq (by simp)
    split
    · exact ⟨h1, h2, h3, h4, fun hc => absurd hc hncr, h6⟩
    · rename_i c hci
      by_cases hrev : c.revoked
      · simp only [if_pos hrev]
        exact ⟨h1, h2, h3, h4, fun hc => absurd hc hncr, h6⟩
      · simp only [if_neg hrev]
        unfold deliver
        split
        · rename_i hrunEq
          have hrun : a.runner = RunnerState.suspended := by simpa using hrunEq
          have hres : a.result = none := h4 hrun
          have hstarted : a.pstate.started = true := by
            have h6x := h6 hres
            rw [hrun] at h6x
            simpa using h6x
          have hdone : a.doneValue = false := by rw [h2, hres]; rfl
          have h1z : countAssign a = 0 := by rw [h1, hres]; rfl
          have h3z : a.doneTriggerCount = 0 := by rw [h3, hdone]; rfl
          split
          · exact inv_finishWith _ none (some (transcript c.subject c.token))
              (by simpa using hres) (by simpa using hdone)
              (by simpa [countAssign] using h1z) (by simpa using h3z)
          · refine ⟨?_, ?_, ?_, ?_, ?_, ?_⟩
            · simpa [countAssign, hres] using h1z
            · simpa [hres] using hdone
            · simpa [hdone] using h3z
            · intro hsus; simp at hsus
            · intro hc2; simp at hc2
            · intro _; simp [hstarted]
        · rename_i hrunEq
          have hrun : a.runner = RunnerState.created := by simpa using hrunEq
          exact absurd hrun hncr
        · exact ⟨h1, h2, h3, h4, fun hc => absurd hc hncr, h6⟩

theorem inv_apply (a : Activity) (op : Op) (h : Inv a) : Inv (applyOp a op) := by
  cases op with
  | cancelOp t => exact inv_cancel a t h
  | closeOp r => exact inv_close a r h
  | resumeOp => exact inv_resume a h
  | dispatchOp => exact inv_dispatch a h

theorem inv_applyOps (a : Activity) (ops : List Op) (h : Inv a) :
    Inv (applyOps a ops) := by
  induction ops generalizing a with
  | nil => exact h
  | cons op ops ih => exact ih _ (inv_apply a op h)

theorem inv_reach (i : Nat) (p : PayloadSpec) (ops : List Op) :
    Inv (applyOps (mkActivity i p) ops) :=
  inv_applyOps _ ops (inv_mk i p)

theorem frozen_apply (a : Activity) (op : Op) (r : Option Nat × Option Exc)
    (h : Inv a) (hr : a.result = some r) :
    (applyOp a op).result = some r ∧ payloadExec (applyOp a op) = payloadExec a := by
  obtain ⟨h1, h2, h3, h4, h5, h6⟩ := h
  have hrs : a.result.isSome := by rw [hr]; rfl
  cases op with
  | cancelOp t =>
      show (cancel a t).result = some r ∧ payloadExec (cancel a t) = payloadExec a
      unfold cancel
      simp only [if_pos hrs]
      exact ⟨hr, trivial⟩
  | closeOp reason =>
      show (close a reason).result = some r
        ∧ payloadExec (close a reason) = payloadExec a
      unfold close
      simp only [if_pos hrs]
      exact ⟨hr, trivial⟩
  | resumeOp =>
      show (resumePlain a).result = some r
        ∧ payloadExec (resumePlain a) = payloadExec a
      unfold resumePlain
      split
      · simp only [if_pos hrs]
        exact ⟨hr, rfl⟩
      · rename_i hrun
        exact absurd hr (by rw [h4 hrun]; simp)
      · exact ⟨hr, rfl⟩
  | dispatchOp =>
      show (dispatchSignal a).result = some r
        ∧ payloadExec (dispatchSignal a) = payloadExec a
      unfold dispatchSignal
      split
      · exact ⟨hr, rfl⟩
      · split
        · exact ⟨hr, rfl⟩
        · rename_i c hci
          by_cases hrev : c.revoked
          · simp only [if_pos hrev]
            exact ⟨hr, rfl⟩
          · simp only [if_neg hrev]
            unfold deliver
            split
            · rename_i hrunEq
              have hrun : a.runner = RunnerState.suspended := by simpa using hrunEq
              exact absurd hr (by rw [h4 hrun]; simp)
            · exact ⟨hr, rfl⟩
            · exact ⟨hr, rfl⟩

theorem frozen_applyOps (a : Activity) (ops : List Op) (r : Option Nat × Option Exc)
    (h : Inv a) (hr : a.result = some r) :
    (applyOps a ops).result = some r
    ∧ payloadExec (applyOps a ops) = payloadExec a := by
  induction ops generalizing a with
  | nil => exact ⟨hr, rfl⟩
  | cons op ops ih =>
      obtain ⟨hr1, hp1⟩ := frozen_apply a op r h hr
      obtain ⟨hr2, hp2⟩ := ih (applyOp a op) (inv_apply a op h) hr1
      refine ⟨hr2, ?_⟩
      show payloadExec (applyOps (applyOp a op) ops) = payloadExec a
      rw [hp2, hp1]

/-- The status function exactly as claim C3 words it: with a result present,
SUCCESS when the stored error is `None`; CANCELLED when the stored error is
this activity's *own* cancellation — an Interrupt or `ActivityCancelled`
whose `subject` is this activity; FAILED for any other error; with no
result, CREATED before the payload has begun executing and RUNNING after. -/
def statusClaim (a : Activity) : ActivityState :=
  match a.result with
  | some (_, some e) =>
      match e with
      | .activityCancelled s _ => if s = a.id then .CANCELLED else .FAILED
      | .cancelActivity s _ => if s = a.id then .CANCELLED else .FAILED
      | _ => .FAILED
  | some (_, none) => .SUCCESS
  | none => if a.pstate.started then .RUNNING else .CREATED

/-- Claim C3 as amended: CANCELLED exactly when the stored error is an
`ActivityCancelled` instance, whatever its subject (plain interrupts and
all other errors give FAILED); with no result, a state is returned only
while the runner coroutine is alive (not yet started, or suspended in the
payload) — CREATED when the payload has not begun executing, RUNNING when
it has; with no result and a terminated runner, the status read raises
`AttributeError` (`none`) instead of returning a state. -/
def statusAmended (a : Activity) : Option ActivityState :=
  match a.result with
  | some (_, some e) =>
      some (if e.isActivityCancelled then .CANCELLED else .FAILED)
  | some (_, none) => some .SUCCESS
  | none =>
      if a.runner = .created ∨ a.runner = .suspended then
        some (if a.pstate.started then .RUNNING else .CREATED)
      else none

theorem status_eq_amended (a : Activity) (h : Inv a) :
    Activity.status? a = statusAmended a := by
  obtain ⟨h1, h2, h3, h4, h5, h6⟩ := h
  unfold Activity.status? statusAmended runnerFrameLastiIsMinusOne
  cases hres : a.result with
  | some r =>
      obtain ⟨v, eo⟩ := r
      cases eo <;> rfl
  | none =>
      have h6x := h6 hres
      cases hrun : a.runner with
      | created =>
          have hst : a.pstate.started = false := h6x.mp hrun
          simp [hst]
      | suspended =>
          have hst : a.pstate.started = true := by
            cases hv : a.pstate.started
            · have hc := h6x.mpr hv
              rw [hrun] at hc
              simp at hc
            · rfl
          simp [hst]
      | completed => simp
      | errored e => simp
      | closedR => simp

theorem cancel_created_eq (i : Nat) (p : PayloadSpec) (token : List Nat) :
    cancel (mkActivity i p) token =
      { mkActivity i p with
          result := some (none, some (Exc.activityCancelled i token)),
          doneValue := true,
          doneTriggerCount := 1,
          events := [Ev.assignResult none (some (.activityCancelled i token)),
                     Ev.triggerEv] } := by
  rfl

theorem finishWith_fields (a : Activity) (v : Option Nat) (e : Option Exc)
    (hd : a.doneValue = false) :
    (finishWith a v e).result = some (v, e)
    ∧ (finishWith a v e).cancellations = a.cancellations.map CancelInterrupt.revoke
    ∧ (finishWith a v e).doneValue = true
    ∧ (finishWith a v e).doneTriggerCount = a.doneTriggerCount + 1
    ∧ (finishWith a v e).events
        = a.events ++ [Ev.assignResult v e]
          ++ a.cancellations.map (fun x => Ev.revokeEv x.subject x.token)
          ++ [Ev.triggerEv] := by
  unfold finishWith setDone
  simp [hd]

theorem handleStop_ret (b : Activity) (v : Nat) (hb : b.payload.outcome = .ret v)
    (hd : b.doneValue = false) :
    (handleStop b).result = some (some v, none)
    ∧ (handleStop b).cancellations = b.cancellations.map CancelInterrupt.revoke
    ∧ (handleStop b).doneValue = true
    ∧ (handleStop b).doneTriggerCount = b.doneTriggerCount + 1
    ∧ (handleStop b).events
        = b.events ++ [Ev.assignResult (some v) none]
          ++ b.cancellations.map (fun x => Ev.revokeEv x.subject x.token)
          ++ [Ev.triggerEv] := by
  unfold handleStop
  simp only [hb]
  exact finishWith_fields b (some v) none hd

/-- C1: `cancel(*token)` on a CREATED Activity immediately records a result
whose error is a self-referential `ActivityCancelled`, triggers `done`
exactly once, and the wrapped payload never begins executing: its execution
progress stays `(started = false, 0 steps)` under every subsequent sequence
of operations, and the next resumption of the runner closes the payload
without starting it. -/
theorem c1_cancel_created (i : Nat) (p : PayloadSpec) (token : List Nat)
    (ops : List Op) :
    (cancel (mkActivity i p) token).result
        = some (none, some (Exc.activityCancelled i token))
    ∧ (cancel (mkActivity i p) token).doneValue = true
    ∧ (cancel (mkActivity i p) token).doneTriggerCount = 1
    ∧ payloadExec (cancel (mkActivity i p) token) = (false, 0)
    ∧ payloadExec (applyOps (cancel (mkActivity i p) token) ops) = (false, 0)
    ∧ (applyOps (cancel (mkActivity i p) token) ops).result
        = some (none, some (Exc.activityCancelled i token))
    ∧ (resumePlain (cancel (mkActivity i p) token)).pstate.closed = true
    ∧ (resumePlain (cancel (mkActivity i p) token)).pstate.started = false := by
  have hinv : Inv (cancel (mkActivity i p) token) :=
    inv_cancel _ token (inv_mk i p)
  have heq := cancel_created_eq i p token
  have hres : (cancel (mkActivity i p) token).result
      = some (none, some (Exc.activityCancelled i token)) := by rw [heq]
  obtain ⟨hfr, hfp⟩ := frozen_applyOps _ ops _ hinv hres
  refine ⟨hres, ?_, ?_, ?_, ?_, hfr, ?_, ?_⟩
  · rw [heq]
  · rw [heq]
  · rw [heq]
    rfl
  · rw [hfp, heq]
    rfl
  · rw [heq]
    rfl
  · rw [heq]
    rfl

/-- C2 counterexample: a payload that stops by raising an unrelated error
(`ValueError` after zero suspensions) escapes `payload_wrapper` with *no*
result recorded, no interrupt revoked and `done` never triggered — the
completion handler does not run for an unrelated escaping error, contrary
to the claim. -/
theorem c2_counterexample :
    (resumePlain (mkActivity 0 ⟨0, POutcome.exc (.generic "ValueError")⟩)).runner
        = RunnerState.errored (.generic "ValueError")
    ∧ (resumePlain (mkActivity 0 ⟨0, POutcome.exc (.generic "ValueError")⟩)).result
        = none
    ∧ (resumePlain (mkActivity 0 ⟨0, POutcome.exc (.generic "ValueError")⟩)).doneValue
        = false
    ∧ (resumePlain (mkActivity 0 ⟨0, POutcome.exc (.generic "ValueError")⟩)).doneTriggerCount
        = 0
    ∧ (resumePlain (mkActivity 0 ⟨0, POutcome.exc (.generic "ValueError")⟩)).events
        = [] :=
  ⟨rfl, rfl, rfl, rfl, rfl⟩

/-- C2 as amended: when the payload stops by a normal return or by a
delivered cancellation whose subject is this Activity, the completion
handler records the result exactly once, then revokes every interrupt in
the pending-cancellations list, and then triggers `done` exactly once, in
that order (witnessed by the event trace); an unrelated escaping error is
excluded — the handler does not run for it and nothing is recorded (see
the counterexample). -/
theorem c2_record_revoke_trigger (a : Activity) (v : Nat) (c : CancelInterrupt)
    (hr : a.runner = RunnerState.suspended) (hres : a.result = none)
    (hd : a.doneValue = false) :
    (a.payload.outcome = .ret v →
      a.payload.suspensions ≤ a.pstate.stepsRun + 1 →
      (resumePlain a).result = some (some v, none)
      ∧ (resumePlain a).cancellations = a.cancellations.map CancelInterrupt.revoke
      ∧ (resumePlain a).doneValue = true
      ∧ (resumePlain a).doneTriggerCount = a.doneTriggerCount + 1
      ∧ (resumePlain a).events
          = a.events ++ [Ev.assignResult (some v) none]
            ++ a.cancellations.map (fun x => Ev.revokeEv x.subject x.token)
            ++ [Ev.triggerEv])
    ∧ (c.subject = a.id →
      (deliver a c).result = some (none, some (transcript c.subject c.token))
      ∧ (deliver a c).cancellations = a.cancellations.map CancelInterrupt.revoke
      ∧ (deliver a c).doneValue = true
      ∧ (deliver a c).doneTriggerCount = a.doneTriggerCount + 1
      ∧ (deliver a c).events
          = a.events ++ [Ev.assignResult none (some (transcript c.subject c.token))]
            ++ a.cancellations.map (fun x => Ev.revokeEv x.subject x.token)
            ++ [Ev.triggerEv]) := by
  constructor
  · intro ho hsusp
    have hstep : resumePlain a
        = handleStop
            { a with pstate := { a.pstate with stepsRun := a.pstate.stepsRun + 1 } } := by
      unfold resumePlain
      simp only [hr]
      rw [if_neg (by simpa using hsusp)]
    rw [hstep]
    exact handleStop_ret _ v ho hd
  · intro hcs
    unfold deliver
    simp only [hr]
    rw [if_pos hcs]
    exact finishWith_fields a none (some (transcript c.subject c.token)) hd

theorem c2_witness :
    (resumePlain (cancel (resumePlain (mkActivity 3 ⟨1, POutcome.ret 7⟩)) [9])).result
        = some (some 7, none)
    ∧ (deliver (cancel (resumePlain (mkActivity 3 ⟨1, POutcome.ret 7⟩)) [9])
          ⟨3, [9], true, false⟩).result
        = some (none, some (transcript 3 [9])) := by
  have h := c2_record_revoke_trigger
      (cancel (resumePlain (mkActivity 3 ⟨1, POutcome.ret 7⟩)) [9]) 7
      ⟨3, [9], true, false⟩ rfl rfl rfl
  exact ⟨(h.1 rfl (by decide)).1, (h.2 rfl).1⟩

/-- C3 counterexample, two divergences from the claim.  First, `status`
tests only `isinstance(error, ActivityCancelled)` and never looks at the
error's `subject`: closing an activity with an `ActivityCancelled`
belonging to a *different* activity (subject 99 on activity 0) stores an
error that is not this activity's own cancellation, yet `status` reports
CANCELLED where the claim requires FAILED.  Second, on a started activity
with no result whose runner coroutine has terminated (the payload raised
an unrelated `KeyError`), the claim requires RUNNING but the status read
raises `AttributeError` (`cr_frame` of a terminated coroutine is `None`). -/
theorem c3_counterexample :
    Activity.status?
        (close (mkActivity 0 ⟨0, POutcome.ret 0⟩) (Exc.activityCancelled 99 []))
        = some ActivityState.CANCELLED
    ∧ statusClaim (close (mkActivity 0 ⟨0, POutcome.ret 0⟩) (Exc.activityCancelled 99 []))
        = ActivityState.FAILED
    ∧ (close (mkActivity 0 ⟨0, POutcome.ret 0⟩) (Exc.activityCancelled 99 [])).id ≠ 99
    ∧ Activity.status? (resumePlain (mkActivity 1 ⟨0, POutcome.exc (.generic "KeyError")⟩))
        = none
    ∧ statusClaim (resumePlain (mkActivity 1 ⟨0, POutcome.exc (.generic "KeyError")⟩))
        = ActivityState.RUNNING :=
  ⟨rfl, rfl, by decide, rfl, rfl⟩

/-- C3 as amended: on every reachable activity, the status read behaves as
the pure function `statusAmended` of the stored result, the payload's
execution flag and the runner coroutine's liveness: SUCCESS (result with no
error), CANCELLED (stored error is an `ActivityCancelled` instance,
whatever its subject), FAILED (any other error, plain interrupts included);
with no result, CREATED (payload not begun) or RUNNING (payload begun) while
the runner coroutine is alive, and an `AttributeError` (no state returned)
once the runner has terminated without a result. -/
theorem c3_status_pure_function (i : Nat) (p : PayloadSpec) (ops : List Op) :
    Activity.status? (applyOps (mkActivity i p) ops)
      = statusAmended (applyOps (mkActivity i p) ops) :=
  status_eq_amended _ (inv_reach i p ops)

/-- C4: over every operation sequence from a fresh activity, the result cell
is assigned at most once (the event trace holds at most one assignment),
a result exists exactly when `done` has been triggered — and it was
triggered exactly once — and once a result exists no further operation
changes the stored result or the payload's execution progress. -/
theorem c4_write_once (i : Nat) (p : PayloadSpec) (ops : List Op) (op : Op) :
    countAssign (applyOps (mkActivity i p) ops) ≤ 1
    ∧ ((applyOps (mkActivity i p) ops).result.isSome = true
        ↔ (applyOps (mkActivity i p) ops).doneValue = true)
    ∧ (applyOps (mkActivity i p) ops).doneTriggerCount
        = (if (applyOps (mkActivity i p) ops).doneValue then 1 else 0)
    ∧ (∀ r, (applyOps (mkActivity i p) ops).result = some r →
        (applyOp (applyOps (mkActivity i p) ops) op).result = some r
        ∧ payloadExec (applyOp (applyOps (mkActivity i p) ops) op)
            = payloadExec (applyOps (mkActivity i p) ops)) := by
  obtain ⟨h1, h2, h3, h4, h5, h6⟩ := inv_reach i p ops
  refine ⟨?_, ?_, h3, ?_⟩
  · rw [h1]
    split <;> decide
  · rw [h2]
  · intro r hr
    exact frozen_apply _ op r (inv_reach i p ops) hr

theorem c4_witness :
    countAssign (applyOps (mkActivity 0 ⟨0, POutcome.ret 5⟩) [Op.resumeOp]) ≤ 1
    ∧ (applyOp (applyOps (mkActivity 0 ⟨0, POutcome.ret 5⟩) [Op.resumeOp])
          (Op.cancelOp [])).result = some (some 5, none) := by
  have h := c4_write_once 0 ⟨0, POutcome.ret 5⟩ [Op.resumeOp] (Op.cancelOp [])
  exact ⟨h.1, (h.2.2.2 (some 5, none) rfl).1⟩

/-- C5: awaiting a finished Activity yields the stored value when the stored
error is `None` and raises the stored error object otherwise; the await
leaves the state unchanged, so any number of callers and repeated awaits
observe the identical outcome.  (The immediate pass-through of an already
triggered `Condition` is modelled from the spec.) -/
theorem c5_await_repeatable (a : Activity) (v : Option Nat) (eOpt : Option Exc)
    (hres : a.result = some (v, eOpt)) (hd : a.doneValue = true) :
    awaitStep a = some (a, match eOpt with
                          | some e => Except.error e
                          | none => Except.ok v)
    ∧ (awaitStep a).bind (fun s => awaitStep s.1) = awaitStep a := by
  have h1 : awaitStep a = some (a, match eOpt with
      | some e => Except.error e
      | none => Except.ok v) := by
    unfold awaitStep
    simp only [hd, hres]
    cases eOpt <;> rfl
  refine ⟨h1, ?_⟩
  rw [h1]
  exact h1

theorem c5_witness :
    awaitStep (resumePlain (mkActivity 0 ⟨0, POutcome.ret 42⟩))
        = some (resumePlain (mkActivity 0 ⟨0, POutcome.ret 42⟩),
            Except.ok (some 42)) := by
  exact (c5_await_repeatable (resumePlain (mkActivity 0 ⟨0, POutcome.ret 42⟩))
      (some 42) none rfl rfl).1

/-- C6: a `CancelActivity` caught by the wrapper whose subject is a
*different* activity fails the wrapper's assertion: the assertion flag is
set, the error escapes (runner errored), and nothing is recorded — no
result, no `done` trigger, no revocation; a cancellation outcome is
recorded only when the caught interrupt's subject is the activity itself,
in which case `status` becomes CANCELLED. -/
theorem c6_misrouted_cancellation (a : Activity) (c : CancelInterrupt)
    (hr : a.runner = RunnerState.suspended) (hs : ¬ c.subject = a.id) :
    (deliver a c).assertionFailed = true
    ∧ (deliver a c).runner = RunnerState.errored (.generic "AssertionError")
    ∧ (deliver a c).result = a.result
    ∧ (deliver a c).doneValue = a.doneValue
    ∧ (deliver a c).doneTriggerCount = a.doneTriggerCount
    ∧ (deliver a c).events = a.events
    ∧ (deliver a c).cancellations = a.cancellations
    ∧ (∀ c2 : CancelInterrupt, c2.subject = a.id →
        (deliver a c2).result = some (none, some (transcript c2.subject c2.token))
        ∧ Activity.status? (deliver a c2) = some ActivityState.CANCELLED) := by
  have hred : deliver a c
      = { a with assertionFailed := true,
                 runner := .errored (.generic "AssertionError") } := by
    unfold deliver
    simp only [hr]
    rw [if_neg hs]
  refine ⟨by rw [hred], by rw [hred], by rw [hred], by rw [hred], by rw [hred],
    by rw [hred], by rw [hred], ?_⟩
  intro c2 hc2
  have hred2 : deliver a c2
      = { finishWith a none (some (transcript c2.subject c2.token)) with
            runner := .completed } := by
    unfold deliver
    simp only [hr]
    rw [if_pos hc2]
  constructor
  · rw [hred2]
    by_cases hdv : a.doneValue = true
    · simp [finishWith, setDone, hdv]
    · simp [finishWith, setDone, hdv]
  · rw [hred2]
    by_cases hdv : a.doneValue = true
    · simp [Activity.status?, finishWith, setDone, hdv, Exc.isActivityCancelled,
        transcript]
    · simp [Activity.status?, finishWith, setDone, hdv, Exc.isActivityCancelled,
        transcript]

theorem c6_witness :
    (deliver (resumePlain (mkActivity 0 ⟨1, POutcome.ret 1⟩))
        ⟨5, [], true, false⟩).assertionFailed = true
    ∧ Activity.status? (deliver (resumePlain (mkActivity 0 ⟨1, POutcome.ret 1⟩))
        ⟨0, [], true, false⟩) = some ActivityState.CANCELLED := by
  have h := c6_misrouted_cancellation (resumePlain (mkActivity 0 ⟨1, POutcome.ret 1⟩))
      ⟨5, [], true, false⟩ rfl (by decide)
  exact ⟨h.1, (h.2.2.2.2.2.2.2 ⟨0, [], true, false⟩ rfl).2⟩

/-- C7: triggering a `Done` condition a second time fails the assertion in
`__set_done__`: the first trigger succeeds (value set, triggered once,
no assertion failure), and a second attempt sets the assertion-failure
flag without triggering again — an invariant violation, not a no-op. -/
theorem c7_double_trigger (aAddr nAddr i : Nat) :
    (setDoneObj (mkDoneObj aAddr nAddr i)).assertFailed = false
    ∧ (setDoneObj (mkDoneObj aAddr nAddr i)).value = true
    ∧ (setDoneObj (mkDoneObj aAddr nAddr i)).triggerCount = 1
    ∧ (setDoneObj (setDoneObj (mkDoneObj aAddr nAddr i))).assertFailed = true
    ∧ (setDoneObj (setDoneObj (mkDoneObj aAddr nAddr i))).triggerCount = 1
    ∧ (setDoneObj (setDoneObj (mkDoneObj aAddr nAddr i))).value = true :=
  ⟨rfl, rfl, rfl, rfl, rfl, rfl⟩

theorem setDoneObj_inverse (d : DoneObj) : (setDoneObj d).inverse = d.inverse := by
  unfold setDoneObj
  split <;> rfl

theorem setDoneObj_addr (d : DoneObj) : (setDoneObj d).addr = d.addr := by
  unfold setDoneObj
  split <;> rfl

theorem iterate_setDone_inverse (d : DoneObj) (k : Nat) :
    (setDoneObj^[k] d).inverse = d.inverse := by
  induction k with
  | zero => rfl
  | succ k ih => rw [Function.iterate_succ_apply', setDoneObj_inverse, ih]

theorem iterate_setDone_addr (d : DoneObj) (k : Nat) :
    (setDoneObj^[k] d).addr = d.addr := by
  induction k with
  | zero => rfl
  | succ k ih => rw [Function.iterate_succ_apply', setDoneObj_addr, ih]

/-- C8 counterexample: the claim says the `NotDone` complement is *lazily*
created; in the source `Done.__init__` executes `self._inverse = NotDone(self)`
eagerly, so a freshly constructed `Done` on which `__invert__` was never
called already holds its complement — the negation of lazy creation. -/
theorem c8_counterexample :
    (mkDoneObj 0 1 2).inverse ≠ none
    ∧ (mkDoneObj 0 1 2).inverse = some { addr := 1, doneAddr := 0 } :=
  ⟨by decide, rfl⟩

/-- C8 as amended: at every point of a `Done`'s lifetime (any number of
trigger attempts), `bool(done)` equals `not bool(~done)`, and inversion
round-trips on object identity: `~done` is the cached `NotDone` created at
construction (same address), and `~(~done)` refers back to the `Done`'s own
address — with the complement *eagerly* created at construction and cached,
not lazily. -/
theorem c8_done_notdone (aAddr nAddr i k : Nat) :
    ∃ nd : NotDoneObj,
      (setDoneObj^[k] (mkDoneObj aAddr nAddr i)).invertD = some nd
      ∧ nd = { addr := nAddr, doneAddr := aAddr }
      ∧ (setDoneObj^[k] (mkDoneObj aAddr nAddr i)).boolVal
          = !(nd.boolVal (setDoneObj^[k] (mkDoneObj aAddr nAddr i)))
      ∧ nd.invertN = (setDoneObj^[k] (mkDoneObj aAddr nAddr i)).addr := by
  refine ⟨{ addr := nAddr, doneAddr := aAddr }, ?_, rfl, ?_, ?_⟩
  · show (setDoneObj^[k] (mkDoneObj aAddr nAddr i)).inverse = _
    rw [iterate_setDone_inverse]
    rfl
  · simp [DoneObj.boolVal, NotDoneObj.boolVal]
  · show aAddr = (setDoneObj^[k] (mkDoneObj aAddr nAddr i)).addr
    rw [iterate_setDone_addr]
    rfl

/-- C9: `cancel(*token)` on a finished Activity (a result is recorded) is a
complete no-op — the whole state (result cell, done condition, pending
cancellations, signal queue, payload state, trace) is unchanged — and
remains a no-op under any number of repetitions. -/
theorem c9_cancel_finished_noop (a : Activity) (r : Option Nat × Option Exc)
    (token : List Nat) (n : Nat) (h : a.result = some r) :
    cancel a token = a ∧ (fun x => cancel x token)^[n] a = a := by
  have h1 : cancel a token = a := by
    unfold cancel
    simp only [if_pos (show a.result.isSome = true by rw [h]; rfl)]
  refine ⟨h1, ?_⟩
  induction n with
  | zero => rfl
  | succ n ih => rw [Function.iterate_succ_apply, h1, ih]

theorem c9_witness :
    cancel (resumePlain (mkActivity 0 ⟨0, POutcome.ret 2⟩)) [7]
        = resumePlain (mkActivity 0 ⟨0, POutcome.ret 2⟩)
    ∧ (fun x => cancel x [7])^[3] (resumePlain (mkActivity 0 ⟨0, POutcome.ret 2⟩))
        = resumePlain (mkActivity 0 ⟨0, POutcome.ret 2⟩) :=
  c9_cancel_finished_noop (resumePlain (mkActivity 0 ⟨0, POutcome.ret 2⟩))
    (some 2, none) [7] 3 rfl

/-- C10: on an Activity with no result, `__close__` with the default reason
closes the runner (it can never run again; from CREATED or a suspension it
is closed outright), records `(None, ActivityExit('activity closed'))`,
triggers `done`, makes `status` report FAILED, and makes awaiting raise the
`ActivityExit`; on an Activity that already has a result, `__close__`
changes nothing. -/
theorem c10_close_failure (a : Activity) (h : Inv a) :
    (a.result = none →
      (close a defaultCloseReason).result = some (none, some defaultCloseReason)
      ∧ (close a defaultCloseReason).doneValue = true
      ∧ (close a defaultCloseReason).runner ≠ RunnerState.created
      ∧ (close a defaultCloseReason).runner ≠ RunnerState.suspended
      ∧ ((a.runner = RunnerState.created ∨ a.runner = RunnerState.suspended) →
          (close a defaultCloseReason).runner = RunnerState.closedR)
      ∧ resumePlain (close a defaultCloseReason) = close a defaultCloseReason
      ∧ Activity.status? (close a defaultCloseReason) = some ActivityState.FAILED
      ∧ awaitStep (close a defaultCloseReason)
          = some (close a defaultCloseReason, Except.error defaultCloseReason))
    ∧ (∀ r, a.result = some r → close a defaultCloseReason = a) := by
  obtain ⟨h1, h2, h3, h4, h5, h6⟩ := h
  constructor
  · intro hres
    have hd : a.doneValue = false := by rw [h2, hres]; rfl
    have hrs : ¬ a.result.isSome = true := by rw [hres]; simp
    unfold close
    simp only [if_neg hrs]
    cases hrun : a.runner with
    | created =>
        refine ⟨?_, ?_, ?_, ?_, ?_, ?_, ?_, ?_⟩ <;>
          simp [setDone, hd, hrun, Activity.status?, runnerFrameLastiIsMinusOne,
                defaultCloseReason, Exc.isActivityCancelled, resumePlain, awaitStep]
    | suspended =>
        refine ⟨?_, ?_, ?_, ?_, ?_, ?_, ?_, ?_⟩ <;>
          simp [setDone, hd, hrun, Activity.status?, runnerFrameLastiIsMinusOne,
                defaultCloseReason, Exc.isActivityCancelled, resumePlain, awaitStep]
    | completed =>
        refine ⟨?_, ?_, ?_, ?_, ?_, ?_, ?_, ?_⟩ <;>
          simp [setDone, hd, hrun, Activity.status?, runnerFrameLastiIsMinusOne,
                defaultCloseReason, Exc.isActivityCancelled, resumePlain, awaitStep]
    | errored e =>
        refine ⟨?_, ?_, ?_, ?_, ?_, ?_, ?_, ?_⟩ <;>
          simp [setDone, hd, hrun, Activity.status?, runnerFrameLastiIsMinusOne,
                defaultCloseReason, Exc.isActivityCancelled, resumePlain, awaitStep]
    | closedR =>
        refine ⟨?_, ?_, ?_, ?_, ?_, ?_, ?_, ?_⟩ <;>
          simp [setDone, hd, hrun, Activity.status?, runnerFrameLastiIsMinusOne,
                defaultCloseReason, Exc.isActivityCancelled, resumePlain, awaitStep]
  · intro r hr
    unfold close
    simp only [if_pos (show a.result.isSome = true by rw [hr]; rfl)]

theorem c10_witness :
    Activity.status? (close (mkActivity 0 ⟨1, POutcome.ret 3⟩) defaultCloseReason)
        = some ActivityState.FAILED
    ∧ awaitStep (close (mkActivity 0 ⟨1, POutcome.ret 3⟩) defaultCloseReason)
        = some (close (mkActivity 0 ⟨1, POutcome.ret 3⟩) defaultCloseReason,
            Except.error defaultCloseReason)
    ∧ close (resumePlain (mkActivity 0 ⟨0, POutcome.ret 3⟩)) defaultCloseReason
        = resumePlain (mkActivity 0 ⟨0, POutcome.ret 3⟩) := by
  have hA := c10_close_failure (mkActivity 0 ⟨1, POutcome.ret 3⟩) (inv_mk 0 _)
  have hB := c10_close_failure (resumePlain (mkActivity 0 ⟨0, POutcome.ret 3⟩))
      (inv_reach 0 ⟨0, POutcome.ret 3⟩ [Op.resumeOp])
  obtain ⟨hr1, hr2, hr3, hr4, hr5, hr6, hr7, hr8⟩ := hA.1 rfl
  exact ⟨hr7, hr8, hB.2 (some 3, none) rfl⟩

end USim
